import Mathlib

/-!
# Port mapper (`portmap.go`): registry, accept loop and relay

A shallow embedding of the control-plane handlers `Serv.Bind`, `Serv.Unbind`,
`Serv.List`, of the accept loop `Serv.Listen` and of the relay `Trans`.

The Go program shares `*Port` objects between the map `v.ports` and the
goroutines running `Serv.Listen`, so the embedding keeps an explicit heap of
`Port` objects: a pointer is an index into `World.heap`, the map stores
pointers, and every goroutine keeps the pointer it was started with.
Everything the environment decides (the clock, whether `net.Listen`,
`Accept`, `Dial`, `Read` and `Write` succeed and what they return) is an
argument of the function that models the code reacting to it.
-/

namespace Portmap

/-! ## Data model -/

/-- The constant `RECV_BUF_LEN`: the size of the relay buffer. -/
def RECV_BUF_LEN : Nat := 1024

/-- The struct `Port`. `last_active` is a clock reading, `listener` is `none`
for the nil interface value and `some l` for the listener `l` that
`net.Listen` returned. -/
structure Port where
  remote_addr : String
  listen_port : Int
  last_active : Nat
  running : Bool
  listener : Option Nat
deriving DecidableEq, Repr

/-- What `Port.Str` prints: `"%d => %s  %s"` of `listen_port`, `remote_addr`
and `last_active`. The three printed fields are kept, not the text. -/
structure Line where
  listen_port : Int
  remote_addr : String
  last_active : Nat
deriving DecidableEq, Repr

/-- The method `Port.Str`. -/
def Port.Str (p : Port) : Line :=
  { listen_port := p.listen_port, remote_addr := p.remote_addr, last_active := p.last_active }

/-- The struct `Serv`: the map from listen port to `*Port` (a heap index) and
the two flag values. A Go map holds one value per key, as an `AList` does. -/
structure Serv where
  ports : AList (fun _ : Int => Nat)
  showdata : Bool
  mng_port : Int

/-- Where a goroutine running `Serv.Listen` stands: before `net.Listen`
(`entry`), at the head of the `for port.running` loop with its local
`listener` (`looping`), or returned. -/
inductive ListenPc where
  | entry
  | looping (listener : Nat)
  | returned
deriving DecidableEq, Repr

/-- One goroutine `go v.Listen(p, *(v.showdata))`: its two arguments and its
position in the function. -/
structure ListenTask where
  port : Nat
  showdata : Bool
  pc : ListenPc
deriving DecidableEq, Repr

/-- The process: the `Serv` value, the `Port` objects allocated so far, the
`Serv.Listen` goroutines, the listeners on which `Close` has been called (one
item per call, in order) and whether `os.Exit` has been called. -/
structure World where
  v : Serv
  heap : List Port
  tasks : List ListenTask
  closed : List Nat
  exited : Bool

/-- The function `NewServ` followed by `flag.Parse`: an empty map and the
given flag values (the defaults are `false` and `8181`). -/
def NewServ (showdata : Bool) (mng_port : Int) : Serv :=
  { ports := ∅, showdata := showdata, mng_port := mng_port }

/-- The process right after `NewServ`: no `Port` object, no goroutine. -/
def World.init (showdata : Bool) (mng_port : Int) : World :=
  { v := NewServ showdata mng_port, heap := [], tasks := [], closed := [], exited := false }

/-- What a handler reads of its `*http.Request`: `r.RemoteAddr`, the integer
that `fmt.Sscanf(..., "%d", &port)` leaves in `port` for the `port` parameter
(0 when it does not scan), and the `local_port` and `target_addr` parameters
(`""` when absent, as `Query().Get` returns). -/
structure Request where
  RemoteAddr : String
  port : Int
  local_port : String
  target_addr : String
deriving DecidableEq, Repr

/-- How a handler ends: it returned having written `body` to the response, or
it stopped on a nil dereference (the HTTP server recovers the panic, the
process goes on and nothing was written by these handlers before it). -/
inductive Reply where
  | wrote (body : String)
  | panicked
deriving DecidableEq, Repr

/-! ## Control-plane handlers -/

/-- The expression `strings.Split(s, ":")[0]`: the text before the first
colon, the whole text when there is none. -/
def splitHead (s : String) : String :=
  String.mk (s.data.takeWhile (fun c => c != ':'))

/-- Lines 233-244 of `Serv.Bind`: the value of `remote_addr` once the request
has been read. -/
def Serv.bindTarget (r : Request) : String :=
  let _addr := splitHead r.RemoteAddr
  let remote_addr := _addr ++ ":" ++ r.local_port
  if r.target_addr ≠ "" then r.target_addr else remote_addr

/-- The handler `Serv.Bind` (lines 232-262), with `now` the value of
`time.Now()`. A pointer found in the map that denotes no object stands for a
nil `*Port`: writing through it panics. -/
def Serv.Bind (w : World) (r : Request) (now : Nat) : World × Reply :=
  let remote_addr := Serv.bindTarget r
  match w.v.ports.lookup r.port with
  | none =>
    let p : Port :=
      { remote_addr := remote_addr, listen_port := r.port, running := true,
        last_active := now, listener := none }
    let a := w.heap.length
    ({ w with
        heap := w.heap ++ [p]
        v := { w.v with ports := w.v.ports.insert r.port a }
        tasks := w.tasks ++ [{ port := a, showdata := w.v.showdata, pc := ListenPc.entry }] },
      Reply.wrote "ok\n")
  | some a =>
    match w.heap[a]? with
    | none => (w, Reply.panicked)
    | some p =>
      ({ w with heap := w.heap.set a { p with remote_addr := remote_addr, last_active := now } },
        Reply.wrote "ok\n")

/-- The handler `Serv.Unbind` (lines 298-311). `p.listener.Close()` on the nil
interface value panics: the handler stops there, after `p.running = false`
and before `delete`. -/
def Serv.Unbind (w : World) (r : Request) : World × Reply :=
  match w.v.ports.lookup r.port with
  | some a =>
    match w.heap[a]? with
    | none => (w, Reply.panicked)
    | some p =>
      let w1 : World := { w with heap := w.heap.set a { p with running := false } }
      match p.listener with
      | none => (w1, Reply.panicked)
      | some l =>
        ({ w1 with
            closed := w1.closed ++ [l]
            v := { w1.v with ports := w1.v.ports.erase r.port } },
          Reply.wrote "ok\n")
  | none => (w, Reply.wrote "failed, [not found]\n")

/-- The loop of `Serv.List` over the entries of the map: the lines written,
and whether the loop stopped on a nil `*Port`. -/
def listLines (heap : List Port) : List (Sigma (fun _ : Int => Nat)) → List Line × Bool
  | [] => ([], false)
  | e :: es =>
    match heap[e.2]? with
    | none => ([], true)
    | some p => ((p.Str :: (listLines heap es).1), (listLines heap es).2)

/-! ## The accept loop -/

/-- What one pass through the body of the accept loop meets: `Accept` returns
an error, or it returns the connection `conn` and `net.Dial` then fails
(`dial = none`) or returns the connection `conn1` (`dial = some conn1`). -/
inductive AcceptOutcome where
  | acceptErr
  | accepted (conn : Nat) (dial : Option Nat)
deriving DecidableEq, Repr

/-- What the accept loop does to the outside: the address it dials, the
connection it closes, the relay goroutine `go Trans(conn1, conn2, tag)` it
starts. -/
inductive Event where
  | dial (addr : String)
  | connClose (conn : Nat)
  | goTrans (conn1 conn2 : Nat) (tag : String)
deriving DecidableEq, Repr

/-- The variable `tag_up` of `Serv.Listen` (lines 275-278). -/
def tag_up (showdata : Bool) : String := if !showdata then "" else "<<"

/-- The variable `tag_down` of `Serv.Listen` (lines 275-278). -/
def tag_down (showdata : Bool) : String := if !showdata then "" else ">>"

/-- Lines 270-279 of `Serv.Listen`, run by goroutine `tid`, with `res` the
result of `net.Listen`: `none` is an error (`os.Exit(1)`), `some l` the
listener, which is stored in the `Port` object. A goroutine started with a
nil `*Port` panics on `port.listen_port`, which ends the process. -/
def Serv.ListenStart (w : World) (tid : Nat) (res : Option Nat) : World :=
  match w.tasks[tid]? with
  | some { port := a, showdata := sd, pc := ListenPc.entry } =>
    match w.heap[a]?, res with
    | none, _ => { w with exited := true }
    | some _, none => { w with exited := true }
    | some p, some l =>
      { w with
          heap := w.heap.set a { p with listener := some l }
          tasks := w.tasks.set tid { port := a, showdata := sd, pc := ListenPc.looping l } }
  | _ => w

/-- What the body of the accept loop (lines 282-294) does for an accepted
connection, given the address read from `port.remote_addr`. -/
def acceptedEvents (addr : String) (showdata : Bool) (conn : Nat) : Option Nat → List Event
  | none => [Event.dial addr, Event.connClose conn]
  | some conn1 =>
    [Event.dial addr, Event.goTrans conn conn1 (tag_up showdata),
      Event.goTrans conn1 conn (tag_down showdata)]

/-- One pass of goroutine `tid` through `for port.running { ... }` (lines
281-295): the test of `port.running`, `Accept`, and for an accepted connection
the dial of `port.remote_addr` as the `Port` object holds it now, then either
`conn.Close()` or the two relays. The goroutine returns when `port.running` is
false or `Accept` fails; a nil `*Port` panics, which ends the process. -/
def Serv.ListenIter (w : World) (tid : Nat) (o : AcceptOutcome) : World × List Event :=
  match w.tasks[tid]? with
  | some { port := a, showdata := sd, pc := ListenPc.looping _ } =>
    let stop : World :=
      { w with tasks := w.tasks.set tid { port := a, showdata := sd, pc := ListenPc.returned } }
    match w.heap[a]? with
    | none => ({ w with exited := true }, [])
    | some p =>
      if p.running then
        match o with
        | AcceptOutcome.acceptErr => (stop, [])
        | AcceptOutcome.accepted conn d => (w, acceptedEvents p.remote_addr sd conn d)
      else (stop, [])
  | _ => (w, [])

/-- Goroutine `tid` going through the accept loop once per item of
`outcomes`, nothing else running in between: the final process and
everything the loop did, in order. -/
def Serv.ListenRun (w : World) (tid : Nat) : List AcceptOutcome → World × List Event
  | [] => (w, [])
  | o :: os =>
    let r := Serv.ListenIter w tid o
    let r2 := Serv.ListenRun r.1 tid os
    (r2.1, r.2 ++ r2.2)

/-- The handler `Serv.List` (lines 263-268): one line per entry of the map,
in the order the map is iterated (here the order of the association list; Go
leaves it unspecified). -/
def Serv.List (w : World) : List Line × Bool :=
  listLines w.heap w.v.ports.entries

/-! ## The process as a transition system -/

/-- One atomic thing that happens in the process: a control-plane request is
handled, or a `Serv.Listen` goroutine takes a step. -/
inductive Action where
  | bind (r : Request) (now : Nat)
  | unbind (r : Request)
  | list
  | listenStart (tid : Nat) (res : Option Nat)
  | listenIter (tid : Nat) (o : AcceptOutcome)
deriving DecidableEq, Repr

/-- The process after one action; nothing happens once `os.Exit` was called. -/
def step (w : World) (act : Action) : World :=
  if w.exited then w
  else
    match act with
    | Action.bind r now => (Serv.Bind w r now).1
    | Action.unbind r => (Serv.Unbind w r).1
    | Action.list => w
    | Action.listenStart tid res => Serv.ListenStart w tid res
    | Action.listenIter tid o => (Serv.ListenIter w tid o).1

/-- The process after a sequence of actions. -/
def run (w : World) (acts : List Action) : World := acts.foldl step w

/-- The states the process can be in: those reached from the start. -/
def Reachable (w : World) : Prop :=
  ∃ showdata mng_port acts, w = run (World.init showdata mng_port) acts

/-- The registry is well formed: every pointer in the map denotes a `Port`
object whose `listen_port` is the key it is stored under. -/
def WF (w : World) : Prop :=
  ∀ e ∈ w.v.ports.entries, (w.heap[e.2]?).map Port.listen_port = some e.1

instance (w : World) : Decidable (WF w) := by
  unfold WF; infer_instance

/-! ## The relay -/

/-- What one pass through the loop of `Trans` meets: `conn1.Read` returns an
error, or it returns `n = data.length` bytes and `conn2.Write` then succeeds
(`writeOk`) or fails. -/
inductive Io where
  | readErr
  | read (data : List UInt8) (writeOk : Bool)
deriving DecidableEq, Repr

/-- What `Trans` does to the outside: a line printed on standard output, a
`Write` on a connection, a `Close` on a connection. -/
inductive IoEvent where
  | print (tag : String) (data : List UInt8)
  | write (conn : Nat) (data : List UInt8)
  | close (conn : Nat)
deriving DecidableEq, Repr

/-- The `for` loop of `Trans` (lines 128-144) over the script of what `Read`
and `Write` return, with `buf` the buffer: the events in order, and whether
the loop was left by `break` (`false`: the script ended with the loop still
waiting in `Read`). A read of `n` bytes overwrites `buf[0:n]`; what is
printed and written is `buf[0:n]`. -/
def Trans.loop (conn2 : Nat) (tag : String) : List UInt8 → List Io → List IoEvent × Bool
  | _, [] => ([], false)
  | _, Io.readErr :: _ => ([], true)
  | buf, Io.read data writeOk :: rest =>
    let n := data.length
    let buf1 := data ++ buf.drop n
    let shown := if tag ≠ "" then [IoEvent.print tag (buf1.take n)] else []
    let sent := IoEvent.write conn2 (buf1.take n)
    if writeOk then
      (shown ++ sent :: (Trans.loop conn2 tag buf1 rest).1, (Trans.loop conn2 tag buf1 rest).2)
    else (shown ++ [sent], true)

/-- The function `Trans` (lines 124-146): the loop on a fresh buffer of
`RECV_BUF_LEN` bytes, then, when the loop is left, the deferred calls in
reverse order of their `defer`: `conn2.Close()` and then `conn1.Close()`.
The result is the events and whether `Trans` returned. -/
def Trans (conn1 conn2 : Nat) (tag : String) (script : List Io) : List IoEvent × Bool :=
  let r := Trans.loop conn2 tag (List.replicate RECV_BUF_LEN 0) script
  if r.2 then (r.1 ++ [IoEvent.close conn2, IoEvent.close conn1], true) else (r.1, false)

/-- The number of `Close` calls on connection `c` among the events. -/
def closeCalls (c : Nat) (evs : List IoEvent) : Nat := evs.count (IoEvent.close c)

/-- The calls that touch the connections: the events without the printed
lines. -/
def ioCalls (evs : List IoEvent) : List IoEvent :=
  evs.filter (fun e => match e with | IoEvent.print _ _ => false | _ => true)

/-- The data of the `Write` calls on connection `c`, in order. -/
def written (c : Nat) : List IoEvent → List (List UInt8)
  | [] => []
  | IoEvent.write c2 data :: es => if c2 = c then data :: written c es else written c es
  | _ :: es => written c es

/-! ## The caller's address -/

/-- Go's `net.JoinHostPort`, which `net/http` uses (through `TCPAddr.String`)
to fill `r.RemoteAddr` from the peer's IP and port: a host that contains a
colon, as a literal IPv6 address does, is put in square brackets. -/
def joinHostPort (host port : String) : String :=
  if ':' ∈ host.data then "[" ++ host ++ "]:" ++ port else host ++ ":" ++ port

/-! ## What the relay is said to do -/

/-- Following the description of the relay: the data of every successful
read, in order, up to the first read or write error (the data handed to a
`Write` that fails is the last item). -/
def relayed : List Io → List (List UInt8)
  | [] => []
  | Io.readErr :: _ => []
  | Io.read data true :: rest => data :: relayed rest
  | Io.read data false :: _ => [data]

/-- Whether the script holds a read error or a write error. -/
def hasError : List Io → Bool
  | [] => false
  | Io.readErr :: _ => true
  | Io.read _ true :: rest => hasError rest
  | Io.read _ false :: _ => true

/-! ## What the accept loop is said to do -/

/-- Following the description of the accept loop, for a binding whose target
is `addr`: an accept error ends the loop; a failed dial closes the inbound
connection, starts no relay, and the loop goes on; a successful dial starts
two relays, one per direction, and the loop goes on. -/
def loopEvents (addr : String) (showdata : Bool) : List AcceptOutcome → List Event
  | [] => []
  | AcceptOutcome.acceptErr :: _ => []
  | AcceptOutcome.accepted conn none :: rest =>
    Event.dial addr :: Event.connClose conn :: loopEvents addr showdata rest
  | AcceptOutcome.accepted conn (some conn1) :: rest =>
    Event.dial addr :: Event.goTrans conn conn1 (tag_up showdata) ::
      Event.goTrans conn1 conn (tag_down showdata) :: loopEvents addr showdata rest

/-- The number of successful dials before the first accept error. -/
def dialsOk : List AcceptOutcome → Nat
  | [] => 0
  | AcceptOutcome.acceptErr :: _ => 0
  | AcceptOutcome.accepted _ none :: rest => dialsOk rest
  | AcceptOutcome.accepted _ (some _) :: rest => dialsOk rest + 1

/-- The number of relay goroutines started among the events. -/
def relaysStarted : List Event → Nat
  | [] => 0
  | Event.goTrans _ _ _ :: rest => relaysStarted rest + 1
  | _ :: rest => relaysStarted rest

/-- Whether the action is a `/bind` request for port `p`. -/
def bindsPort (p : Int) : Action → Bool
  | Action.bind r _ => decide (r.port = p)
  | _ => false

/-! ## The registry invariant on `running` -/

/-- Every binding stored in the map is a `Port` object whose `running` flag
is true. -/
def AllRunning (w : World) : Prop :=
  ∀ e ∈ w.v.ports.entries, (w.heap[e.2]?).map Port.running = some true

instance (w : World) : Decidable (AllRunning w) := by
  unfold AllRunning; infer_instance

/-- Every `Port` object whose `running` flag is true is the binding of its own
`listen_port`: the map stores, under that port, the pointer to this very
object. An object that is not (or no longer) in the map is not running. -/
def RunningStored (w : World) : Prop :=
  ∀ a q, w.heap[a]? = some q → q.running = true → w.v.ports.lookup q.listen_port = some a

/-- Whether the action is a control-plane request, `/bind` or `/unbind`. -/
def isRequest : Action → Bool
  | Action.bind _ _ => true
  | Action.unbind _ => true
  | _ => false

/-- No `/unbind` of the sequence panics: each one is handled in a state where
the handler of `Serv.Unbind` returns. -/
def unbindsReturn (w : World) : List Action → Prop
  | [] => True
  | Action.unbind r :: acts =>
    (Serv.Unbind w r).2 ≠ Reply.panicked ∧ unbindsReturn (step w (Action.unbind r)) acts
  | act :: acts => unbindsReturn (step w act) acts

/-! ## Lemmas on the heap and on `/list` -/

/-- Every pointer of the entries `es` denotes an object of `heap` whose
`listen_port` is the key of the entry. -/
def Valid (heap : List Port) (es : List (Sigma (fun _ : Int => Nat))) : Prop :=
  ∀ e ∈ es, (heap[e.2]?).map Port.listen_port = some e.1

theorem valid_lt {heap : List Port} {es : List (Sigma (fun _ : Int => Nat))}
    (h : Valid heap es) {e : Sigma (fun _ : Int => Nat)} (he : e ∈ es) :
    e.2 < heap.length := by
  have := h e he
  by_contra hlt
  rw [List.getElem?_eq_none (Nat.le_of_not_lt hlt)] at this
  simp at this

theorem valid_get {heap : List Port} {es : List (Sigma (fun _ : Int => Nat))}
    (h : Valid heap es) {e : Sigma (fun _ : Int => Nat)} (he : e ∈ es) :
    ∃ p, heap[e.2]? = some p ∧ p.listen_port = e.1 := by
  have := h e he
  cases hp : heap[e.2]? with
  | none => rw [hp] at this; simp at this
  | some p => rw [hp] at this; exact ⟨p, rfl, by simpa using this⟩

theorem valid_append {heap : List Port} {es : List (Sigma (fun _ : Int => Nat))}
    (h : Valid heap es) (q : Port) : Valid (heap ++ [q]) es := by
  intro e he
  rw [List.getElem?_append_left (valid_lt h he)]
  exact h e he

theorem getElem?_set_listen_port {heap : List Port} {a : Nat} {p q : Port}
    (ha : heap[a]? = some p) (hq : q.listen_port = p.listen_port) (b : Nat) :
    ((heap.set a q)[b]?).map Port.listen_port = (heap[b]?).map Port.listen_port := by
  rw [List.getElem?_set]
  by_cases hab : a = b
  · subst hab
    have hlt : a < heap.length := by
      rcases List.getElem?_eq_some.1 ha with ⟨h, _⟩
      exact h
    simp [hlt, ha, hq]
  · simp [hab]

theorem valid_set {heap : List Port} {es : List (Sigma (fun _ : Int => Nat))}
    (h : Valid heap es) {a : Nat} {p q : Port}
    (ha : heap[a]? = some p) (hq : q.listen_port = p.listen_port) :
    Valid (heap.set a q) es := by
  intro e he
  rw [getElem?_set_listen_port ha hq]
  exact h e he

theorem valid_sublist {heap : List Port} {es es2 : List (Sigma (fun _ : Int => Nat))}
    (h : Valid heap es) (hs : es2.Sublist es) : Valid heap es2 :=
  fun e he => h e (hs.subset he)

theorem listLines_ok {heap : List Port} {es : List (Sigma (fun _ : Int => Nat))}
    (h : Valid heap es) : (listLines heap es).2 = false := by
  induction es with
  | nil => rfl
  | cons e es ih =>
    obtain ⟨p, hp, _⟩ := valid_get h (List.mem_cons_self e es)
    have ih2 := ih (fun x hx => h x (List.mem_cons_of_mem e hx))
    simp [listLines, hp, ih2]

theorem listLines_filter_absent {heap : List Port} {es : List (Sigma (fun _ : Int => Nat))}
    (h : Valid heap es) {k : Int} (hk : k ∉ es.keys) :
    (listLines heap es).1.filter (fun ln => decide (ln.listen_port = k)) = [] := by
  induction es with
  | nil => rfl
  | cons e es ih =>
    obtain ⟨p, hp, hpe⟩ := valid_get h (List.mem_cons_self e es)
    have hk2 : k ≠ e.1 ∧ k ∉ es.keys := by
      simpa [List.keys] using hk
    have ih2 := ih (fun x hx => h x (List.mem_cons_of_mem e hx)) hk2.2
    have hne : ¬ p.listen_port = k := fun hc => hk2.1 (by rw [← hc, hpe])
    simp [listLines, hp, ih2, Port.Str, hne]

theorem listLines_filter_present {heap : List Port} {es : List (Sigma (fun _ : Int => Nat))}
    (h : Valid heap es) (hnd : es.NodupKeys) {k : Int} {a : Nat} {p : Port}
    (hmem : (⟨k, a⟩ : Sigma (fun _ : Int => Nat)) ∈ es) (hp : heap[a]? = some p) :
    (listLines heap es).1.filter (fun ln => decide (ln.listen_port = k)) = [p.Str] := by
  induction es with
  | nil => simp at hmem
  | cons e es ih =>
    have hv : Valid heap es := fun x hx => h x (List.mem_cons_of_mem e hx)
    obtain ⟨q, hq, hqe⟩ := valid_get h (List.mem_cons_self e es)
    rw [List.nodupKeys_cons] at hnd
    rcases List.mem_cons.1 hmem with heq | htail
    · subst heq
      have hpq : q = p := by
        have : heap[a]? = some q := hq
        rw [hp] at this
        exact (Option.some.inj this).symm
      subst hpq
      have hlp : q.listen_port = k := hqe
      have := listLines_filter_absent hv hnd.1
      simp [listLines, hq, this, Port.Str, hlp]
    · have hke : ¬ q.listen_port = k := by
        intro hc
        apply hnd.1
        rw [hqe] at hc
        rw [hc]
        exact List.mem_keys.2 ⟨a, htail⟩
      have ih2 := ih hv hnd.2 htail
      simp [listLines, hq, ih2, Port.Str, hke]

/-! ## `Bind` on a port that is not bound -/

theorem bind_fresh_eq (w : World) (r : Request) (now : Nat) (h : r.port ∉ w.v.ports) :
    Serv.Bind w r now =
      ({ w with
          heap := w.heap ++ [{ remote_addr := Serv.bindTarget r, listen_port := r.port,
                               running := true, last_active := now, listener := none }]
          v := { w.v with ports := w.v.ports.insert r.port w.heap.length }
          tasks := w.tasks ++
            [{ port := w.heap.length, showdata := w.v.showdata, pc := ListenPc.entry }] },
        Reply.wrote "ok\n") := by
  have hl : w.v.ports.lookup r.port = none := AList.lookup_eq_none.2 h
  simp [Serv.Bind, hl]

theorem bindTarget_of_target_addr (r : Request) (h : r.target_addr ≠ "") :
    Serv.bindTarget r = r.target_addr := by
  simp [Serv.bindTarget, h]

theorem wf_bind_fresh (w : World) (r : Request) (now : Nat) (hwf : WF w)
    (h : r.port ∉ w.v.ports) : WF (Serv.Bind w r now).1 := by
  rw [bind_fresh_eq w r now h]
  intro e he
  simp only [AList.insert_entries_of_neg h, List.mem_cons] at he
  rcases he with rfl | he
  · simp
  · exact valid_append hwf _ e he

/-- C1. In a well-formed registry where port `p = r.port` has no binding, the
handler of `/bind` with a non-empty `target_addr` answers `"ok\n"`, and a
following `/list` runs to its end and prints exactly one line for `p`, with
target `target_addr`; the binding stored under `p` is a new `Port` with
`listen_port = p`, `remote_addr = target_addr`, `running = true` (and a nil
listener). -/
theorem bind_fresh_then_list (w : World) (r : Request) (now : Nat)
    (hwf : WF w) (hfresh : r.port ∉ w.v.ports) (ht : r.target_addr ≠ "") :
    (Serv.Bind w r now).2 = Reply.wrote "ok\n" ∧
    (Serv.List (Serv.Bind w r now).1).2 = false ∧
    (Serv.List (Serv.Bind w r now).1).1.filter (fun ln => decide (ln.listen_port = r.port)) =
      [{ listen_port := r.port, remote_addr := r.target_addr, last_active := now }] ∧
    ∃ a, (Serv.Bind w r now).1.v.ports.lookup r.port = some a ∧
      (Serv.Bind w r now).1.heap[a]? =
        some { remote_addr := r.target_addr, listen_port := r.port, last_active := now,
               running := true, listener := none } := by
  have hwf2 : WF (Serv.Bind w r now).1 := wf_bind_fresh w r now hwf hfresh
  have hlook : (Serv.Bind w r now).1.v.ports.lookup r.port = some w.heap.length := by
    rw [bind_fresh_eq w r now hfresh]
    exact AList.lookup_insert _
  have hobj : (Serv.Bind w r now).1.heap[w.heap.length]? =
      some { remote_addr := r.target_addr, listen_port := r.port, last_active := now,
             running := true, listener := none } := by
    rw [bind_fresh_eq w r now hfresh]
    simp [bindTarget_of_target_addr r ht]
  refine ⟨?_, listLines_ok hwf2, ?_, w.heap.length, hlook, hobj⟩
  · rw [bind_fresh_eq w r now hfresh]
  · have hmem := AList.mem_lookup_iff.1 (Option.mem_def.2 hlook)
    have := listLines_filter_present hwf2 (Serv.Bind w r now).1.v.ports.nodupKeys hmem hobj
    simpa [Serv.List, Port.Str] using this

/-- C1 at the start of the process: `/bind?port=7000&target_addr=127.0.0.1:9999`. -/
theorem bind_fresh_then_list_witness :
    (Serv.List (Serv.Bind (World.init false 8181)
        { RemoteAddr := "10.0.0.5:40000", port := 7000, local_port := "",
          target_addr := "127.0.0.1:9999" } 5).1).1.filter
        (fun ln => decide (ln.listen_port = 7000)) =
      [{ listen_port := 7000, remote_addr := "127.0.0.1:9999", last_active := 5 }] :=
  (bind_fresh_then_list (World.init false 8181)
    { RemoteAddr := "10.0.0.5:40000", port := 7000, local_port := "",
      target_addr := "127.0.0.1:9999" } 5 (by decide) (by decide) (by decide)).2.2.1

/-! ## The registry stays well formed -/

theorem lookup_get {w : World} (hwf : WF w) {k : Int} {a : Nat}
    (h : w.v.ports.lookup k = some a) :
    ∃ p, w.heap[a]? = some p ∧ p.listen_port = k :=
  valid_get hwf (AList.mem_lookup_iff.1 (Option.mem_def.2 h))

theorem bind_bound_eq (w : World) (r : Request) (now : Nat) {a : Nat} {p : Port}
    (hl : w.v.ports.lookup r.port = some a) (hp : w.heap[a]? = some p) :
    Serv.Bind w r now =
      ({ w with
          heap := w.heap.set a
            ({ p with remote_addr := Serv.bindTarget r, last_active := now } : Port) },
        Reply.wrote "ok\n") := by
  simp [Serv.Bind, hl, hp]

theorem wf_bind (w : World) (r : Request) (now : Nat) (hwf : WF w) :
    WF (Serv.Bind w r now).1 := by
  cases hl : w.v.ports.lookup r.port with
  | none => exact wf_bind_fresh w r now hwf (AList.lookup_eq_none.1 hl)
  | some a =>
    obtain ⟨p, hp, _⟩ := lookup_get hwf hl
    rw [bind_bound_eq w r now hl hp]
    exact valid_set hwf hp rfl

theorem wf_unbind (w : World) (r : Request) (hwf : WF w) : WF (Serv.Unbind w r).1 := by
  cases hl : w.v.ports.lookup r.port with
  | none => simpa [Serv.Unbind, hl] using hwf
  | some a =>
    obtain ⟨p, hp, _⟩ := lookup_get hwf hl
    have hv : Valid (w.heap.set a { p with running := false }) w.v.ports.entries :=
      valid_set hwf hp rfl
    cases hlis : p.listener with
    | none => simpa [Serv.Unbind, hl, hp, hlis] using hv
    | some l =>
      have : Valid (w.heap.set a { p with running := false })
          (w.v.ports.erase r.port).entries := by
        show Valid _ (List.kerase r.port w.v.ports.entries)
        exact valid_sublist hv (List.kerase_sublist _ _)
      simpa [Serv.Unbind, hl, hp, hlis] using this

theorem wf_listenStart (w : World) (tid : Nat) (res : Option Nat) (hwf : WF w) :
    WF (Serv.ListenStart w tid res) := by
  unfold Serv.ListenStart
  split
  · split
    · exact hwf
    · exact hwf
    · next p l hp => exact valid_set hwf hp rfl
  · exact hwf

theorem listenIter_heap (w : World) (tid : Nat) (o : AcceptOutcome) :
    (Serv.ListenIter w tid o).1.heap = w.heap ∧ (Serv.ListenIter w tid o).1.v = w.v := by
  unfold Serv.ListenIter
  split
  · split
    · exact ⟨rfl, rfl⟩
    · split
      · split <;> exact ⟨rfl, rfl⟩
      · exact ⟨rfl, rfl⟩
  · exact ⟨rfl, rfl⟩

theorem wf_listenIter (w : World) (tid : Nat) (o : AcceptOutcome) (hwf : WF w) :
    WF (Serv.ListenIter w tid o).1 := by
  have h := listenIter_heap w tid o
  unfold WF
  rw [h.1, h.2]
  exact hwf

theorem wf_step (w : World) (act : Action) (hwf : WF w) : WF (step w act) := by
  unfold step
  split
  · exact hwf
  · cases act with
    | bind r now => exact wf_bind w r now hwf
    | unbind r => exact wf_unbind w r hwf
    | list => exact hwf
    | listenStart tid res => exact wf_listenStart w tid res hwf
    | listenIter tid o => exact wf_listenIter w tid o hwf

theorem wf_run (acts : List Action) : ∀ (w : World), WF w → WF (run w acts) := by
  induction acts with
  | nil => intro w h; exact h
  | cons act acts ih => intro w h; exact ih (step w act) (wf_step w act h)

theorem wf_init (showdata : Bool) (mng_port : Int) : WF (World.init showdata mng_port) := by
  intro e he
  simp [World.init, NewServ] at he

theorem wf_of_reachable {w : World} (h : Reachable w) : WF w := by
  obtain ⟨sd, mp, acts, rfl⟩ := h
  exact wf_run acts _ (wf_init sd mp)

/-- After `/bind` in a well-formed registry the port of the request is bound
to an object that carries the request's target and time. -/
theorem bind_result (w : World) (r : Request) (now : Nat) (hwf : WF w) :
    ∃ a p, (Serv.Bind w r now).1.v.ports.lookup r.port = some a ∧
      (Serv.Bind w r now).1.heap[a]? = some p ∧ p.listen_port = r.port ∧
      p.remote_addr = Serv.bindTarget r ∧ p.last_active = now := by
  cases hl : w.v.ports.lookup r.port with
  | none =>
    have hfresh := AList.lookup_eq_none.1 hl
    rw [bind_fresh_eq w r now hfresh]
    exact ⟨w.heap.length,
      { remote_addr := Serv.bindTarget r, listen_port := r.port, running := true,
        last_active := now, listener := none },
      AList.lookup_insert _, by simp, rfl, rfl, rfl⟩
  | some a =>
    obtain ⟨p, hp, hk⟩ := lookup_get hwf hl
    rw [bind_bound_eq w r now hl hp]
    have hlt : a < w.heap.length := (List.getElem?_eq_some.1 hp).1
    exact ⟨a, { p with remote_addr := Serv.bindTarget r, last_active := now }, hl,
      by simp [hlt], hk, rfl, rfl⟩

theorem list_filter_of_lookup {w : World} (hwf : WF w) {k : Int} {a : Nat} {p : Port}
    (hl : w.v.ports.lookup k = some a) (hp : w.heap[a]? = some p) :
    (Serv.List w).1.filter (fun ln => decide (ln.listen_port = k)) = [p.Str] :=
  listLines_filter_present hwf w.v.ports.nodupKeys
    (AList.mem_lookup_iff.1 (Option.mem_def.2 hl)) hp

theorem list_filter_length_le_one {w : World} (hwf : WF w) (k : Int) :
    ((Serv.List w).1.filter (fun ln => decide (ln.listen_port = k))).length ≤ 1 := by
  cases hl : w.v.ports.lookup k with
  | none =>
    have hk : k ∉ w.v.ports.entries.keys := fun hc =>
      (AList.lookup_eq_none.1 hl) (AList.mem_keys.2 hc)
    have := listLines_filter_absent hwf hk
    simp [Serv.List, this]
  | some a =>
    obtain ⟨p, hp, _⟩ := lookup_get hwf hl
    rw [list_filter_of_lookup hwf hl hp]
    simp

/-- C2. In a well-formed registry, `/bind` for port `p` followed by a second
`/bind` for `p` leaves one binding for `p`: `/list` prints exactly one line
for `p`, and it carries the target of the second request (last write wins).
After any sequence of actions from a well-formed registry (the empty one is
well formed), `/list` prints at most one line per listen port. -/
theorem bind_twice_last_wins (w : World) (r1 r2 : Request) (now1 now2 : Nat)
    (hwf : WF w) (hport : r2.port = r1.port) :
    (Serv.Bind (Serv.Bind w r1 now1).1 r2 now2).2 = Reply.wrote "ok\n" ∧
    (Serv.List (Serv.Bind (Serv.Bind w r1 now1).1 r2 now2).1).1.filter
        (fun ln => decide (ln.listen_port = r1.port)) =
      [{ listen_port := r1.port, remote_addr := Serv.bindTarget r2, last_active := now2 }] ∧
    ∀ (acts : List Action) (k : Int),
      ((Serv.List (run w acts)).1.filter (fun ln => decide (ln.listen_port = k))).length ≤ 1 := by
  have hwf1 := wf_bind w r1 now1 hwf
  have hwf2 := wf_bind _ r2 now2 hwf1
  refine ⟨?_, ?_, fun acts k => list_filter_length_le_one (wf_run acts w hwf) k⟩
  · obtain ⟨a, p, hl, hp, _⟩ := bind_result w r1 now1 hwf
    rw [← hport] at hl
    rw [bind_bound_eq _ r2 now2 hl hp]
  · obtain ⟨a, p, hl, hp, hk, ht, hn⟩ := bind_result _ r2 now2 hwf1
    rw [hport] at hl hk
    rw [list_filter_of_lookup hwf2 hl hp]
    simp [Port.Str, hk, ht, hn]

/-- C2 from the empty registry: two `/bind` requests for port 7000. -/
theorem bind_twice_last_wins_witness :
    (Serv.List (Serv.Bind (Serv.Bind (World.init false 8181)
        { RemoteAddr := "10.0.0.5:40000", port := 7000, local_port := "",
          target_addr := "127.0.0.1:9998" } 1).1
        { RemoteAddr := "10.0.0.5:40001", port := 7000, local_port := "",
          target_addr := "127.0.0.1:9999" } 2).1).1.filter
        (fun ln => decide (ln.listen_port = 7000)) =
      [{ listen_port := 7000, remote_addr := "127.0.0.1:9999", last_active := 2 }] :=
  (bind_twice_last_wins (World.init false 8181)
    { RemoteAddr := "10.0.0.5:40000", port := 7000, local_port := "",
      target_addr := "127.0.0.1:9998" }
    { RemoteAddr := "10.0.0.5:40001", port := 7000, local_port := "",
      target_addr := "127.0.0.1:9999" } 1 2 (by decide) rfl).2.1

/-! ## `Unbind` -/

/-- When the binding of the port has its listener set, `/unbind` marks it not
running, closes that listener, takes the port out of the map and answers
`"ok\n"`. -/
theorem unbind_listening (w : World) (r : Request) {a l : Nat} {p : Port}
    (hl : w.v.ports.lookup r.port = some a) (hp : w.heap[a]? = some p)
    (hlis : p.listener = some l) :
    Serv.Unbind w r =
      ({ w with
          heap := w.heap.set a ({ p with running := false } : Port)
          closed := w.closed ++ [l]
          v := { w.v with ports := w.v.ports.erase r.port } },
        Reply.wrote "ok\n") := by
  simp [Serv.Unbind, hl, hp, hlis]

/-- C3. The state after `/bind?port=7000&target_addr=127.0.0.1:9999` on the
empty registry is reachable and has a binding for 7000 whose listener is
still nil (the goroutine `Serv.Listen` has not reached line 279). There the
handler of `/unbind?port=7000` panics on `p.listener.Close()`: it writes no
response, it has set `running` to false, no listener is closed, and port
7000 is still in the registry and in `/list`. -/
theorem unbind_before_listen_start :
    Reachable (Serv.Bind (World.init false 8181)
        { RemoteAddr := "10.0.0.5:40000", port := 7000, local_port := "",
          target_addr := "127.0.0.1:9999" } 5).1 ∧
    (7000 : Int) ∈ (Serv.Bind (World.init false 8181)
        { RemoteAddr := "10.0.0.5:40000", port := 7000, local_port := "",
          target_addr := "127.0.0.1:9999" } 5).1.v.ports ∧
    (Serv.Unbind (Serv.Bind (World.init false 8181)
        { RemoteAddr := "10.0.0.5:40000", port := 7000, local_port := "",
          target_addr := "127.0.0.1:9999" } 5).1
        { RemoteAddr := "10.0.0.5:40002", port := 7000, local_port := "",
          target_addr := "" }).2 = Reply.panicked ∧
    (Serv.Unbind (Serv.Bind (World.init false 8181)
        { RemoteAddr := "10.0.0.5:40000", port := 7000, local_port := "",
          target_addr := "127.0.0.1:9999" } 5).1
        { RemoteAddr := "10.0.0.5:40002", port := 7000, local_port := "",
          target_addr := "" }).1.heap =
      [{ remote_addr := "127.0.0.1:9999", listen_port := 7000, last_active := 5,
         running := false, listener := none }] ∧
    (Serv.Unbind (Serv.Bind (World.init false 8181)
        { RemoteAddr := "10.0.0.5:40000", port := 7000, local_port := "",
          target_addr := "127.0.0.1:9999" } 5).1
        { RemoteAddr := "10.0.0.5:40002", port := 7000, local_port := "",
          target_addr := "" }).1.closed = [] ∧
    Serv.List (Serv.Unbind (Serv.Bind (World.init false 8181)
        { RemoteAddr := "10.0.0.5:40000", port := 7000, local_port := "",
          target_addr := "127.0.0.1:9999" } 5).1
        { RemoteAddr := "10.0.0.5:40002", port := 7000, local_port := "",
          target_addr := "" }).1 =
      ([{ listen_port := 7000, remote_addr := "127.0.0.1:9999", last_active := 5 }], false) := by
  refine ⟨⟨false, 8181,
      [Action.bind { RemoteAddr := "10.0.0.5:40000", port := 7000,
                     local_port := "", target_addr := "127.0.0.1:9999" } 5], rfl⟩,
    ?_, ?_, ?_, ?_, ?_⟩
  · decide
  · decide
  · decide
  · decide
  · decide

/-- C4. When port `p = r.port` has no binding, the handler of `/unbind`
answers `"failed, [not found]\n"` and the process is left as it was: the map,
every `Port` object, the goroutines and the closed listeners. -/
theorem unbind_unbound (w : World) (r : Request) (h : r.port ∉ w.v.ports) :
    Serv.Unbind w r = (w, Reply.wrote "failed, [not found]\n") := by
  have hl : w.v.ports.lookup r.port = none := AList.lookup_eq_none.2 h
  simp [Serv.Unbind, hl]

/-- C4 on a registry that binds 7000 only: `/unbind?port=7001`. -/
theorem unbind_unbound_witness :
    (Serv.Unbind (Serv.Bind (World.init false 8181)
        { RemoteAddr := "10.0.0.5:40000", port := 7000, local_port := "",
          target_addr := "127.0.0.1:9999" } 5).1
        { RemoteAddr := "10.0.0.5:40002", port := 7001, local_port := "",
          target_addr := "" }).2 = Reply.wrote "failed, [not found]\n" :=
  congrArg Prod.snd (unbind_unbound (Serv.Bind (World.init false 8181)
        { RemoteAddr := "10.0.0.5:40000", port := 7000, local_port := "",
          target_addr := "127.0.0.1:9999" } 5).1
        { RemoteAddr := "10.0.0.5:40002", port := 7001, local_port := "",
          target_addr := "" } (by decide))

/-! ## The target of `/bind` -/

theorem splitHead_join (host rest : String) (h : ':' ∉ host.data) :
    splitHead (host ++ ":" ++ rest) = host := by
  have key : ∀ (l : List Char) (t : List Char), ':' ∉ l →
      (l ++ ':' :: t).takeWhile (fun c => c != ':') = l := by
    intro l t
    induction l with
    | nil => intro _; simp
    | cons c cs ih =>
      intro hc
      have h1 : c ≠ ':' := fun e => hc (by rw [e]; exact List.mem_cons_self _ _)
      have h2 : ':' ∉ cs := fun e => hc (List.mem_cons_of_mem _ e)
      have hb : (c != ':') = true := by simp [h1]
      simp [List.takeWhile, hb, ih h2]
  have hd : (host ++ ":" ++ rest).data = host.data ++ ':' :: rest.data := by
    simp [String.data_append]
  unfold splitHead
  rw [hd, key host.data rest.data h]

/-- A caller whose IP is written without a colon (an IPv4 address) and a
request without `target_addr`: the target is the IP, `":"` and `local_port`. -/
theorem bindTarget_of_caller (ip cport : String) (p : Int) (local_port : String)
    (h : ':' ∉ ip.data) :
    Serv.bindTarget { RemoteAddr := joinHostPort ip cport, port := p,
                      local_port := local_port, target_addr := "" } =
      ip ++ ":" ++ local_port := by
  simp [Serv.bindTarget, joinHostPort, h, splitHead_join]

/-- C5. A caller on the IPv6 loopback address `::1` has
`RemoteAddr = "[::1]:54321"`. For its `/bind?port=7001&local_port=7001`
without `target_addr` the binding's target is `"[:7001"`: the text before the
first colon of `RemoteAddr` is `"["`, not the caller's IP. -/
theorem bind_target_ipv6_caller :
    joinHostPort "::1" "54321" = "[::1]:54321" ∧
    Serv.bindTarget { RemoteAddr := "[::1]:54321", port := 7001,
                      local_port := "7001", target_addr := "" } = "[:7001" ∧
    Serv.bindTarget { RemoteAddr := "[::1]:54321", port := 7001,
                      local_port := "7001", target_addr := "" } ≠ "::1" ++ ":" ++ "7001" ∧
    (Serv.List (Serv.Bind (World.init false 8181)
        { RemoteAddr := "[::1]:54321", port := 7001,
          local_port := "7001", target_addr := "" } 5).1).1 =
      [{ listen_port := 7001, remote_addr := "[:7001", last_active := 5 }] := by
  refine ⟨?_, ?_, ?_, ?_⟩
  · decide
  · decide
  · decide
  · decide

/-! ## `Bind` on a port that is bound -/

/-- C6. In a well-formed registry where port `p = r.port` has a binding, the
handler of `/bind` answers `"ok\n"` and changes that binding's `remote_addr`
and `last_active` only: its `listen_port`, `running` and `listener` are as
before, the map, the goroutines (no `Serv.Listen` is started) and the closed
listeners are as before, and the binding of every other port is the same
object with the same fields. -/
theorem bind_bound_frame (w : World) (r : Request) (now : Nat)
    (hwf : WF w) (hb : r.port ∈ w.v.ports) :
    ∃ a p, w.v.ports.lookup r.port = some a ∧ w.heap[a]? = some p ∧
      (Serv.Bind w r now).2 = Reply.wrote "ok\n" ∧
      (Serv.Bind w r now).1.heap[a]? =
        some { remote_addr := Serv.bindTarget r, listen_port := p.listen_port,
               last_active := now, running := p.running, listener := p.listener } ∧
      (Serv.Bind w r now).1.v = w.v ∧
      (Serv.Bind w r now).1.tasks = w.tasks ∧
      (Serv.Bind w r now).1.closed = w.closed ∧
      (Serv.Bind w r now).1.exited = w.exited ∧
      (Serv.Bind w r now).1.heap.length = w.heap.length ∧
      ∀ k b, k ≠ r.port → w.v.ports.lookup k = some b →
        (Serv.Bind w r now).1.v.ports.lookup k = some b ∧
        (Serv.Bind w r now).1.heap[b]? = w.heap[b]? := by
  cases hl : w.v.ports.lookup r.port with
  | none => exact absurd hb (AList.lookup_eq_none.1 hl)
  | some a =>
    obtain ⟨p, hp, hk⟩ := lookup_get hwf hl
    have hlt : a < w.heap.length := (List.getElem?_eq_some.1 hp).1
    refine ⟨a, p, rfl, hp, ?_⟩
    rw [bind_bound_eq w r now hl hp]
    refine ⟨rfl, by simp [hlt], rfl, rfl, rfl, rfl, by simp, ?_⟩
    intro k b hkne hkb
    refine ⟨hkb, ?_⟩
    obtain ⟨q, hq, hqk⟩ := lookup_get hwf hkb
    have hab : a ≠ b := by
      intro hab
      subst hab
      rw [hp] at hq
      have : p = q := Option.some.inj hq
      subst this
      exact hkne (hqk.symm.trans hk)
    simp [List.getElem?_set, hab]

/-- C6 on a registry that binds 7000 (listening on listener 50) and 7001: a
second `/bind` for 7000 changes the target and the time of the first object
and nothing else. -/
theorem bind_bound_frame_witness :
    (Serv.Bind (run (World.init false 8181)
        [Action.bind { RemoteAddr := "10.0.0.5:40000", port := 7000, local_port := "",
                       target_addr := "127.0.0.1:9998" } 1,
         Action.bind { RemoteAddr := "10.0.0.5:40000", port := 7001, local_port := "7001",
                       target_addr := "" } 2,
         Action.listenStart 0 (some 50)])
      { RemoteAddr := "10.0.0.5:40001", port := 7000, local_port := "",
        target_addr := "127.0.0.1:9999" } 3).1.tasks =
      [{ port := 0, showdata := false, pc := ListenPc.looping 50 },
       { port := 1, showdata := false, pc := ListenPc.entry }] ∧
    (Serv.Bind (run (World.init false 8181)
        [Action.bind { RemoteAddr := "10.0.0.5:40000", port := 7000, local_port := "",
                       target_addr := "127.0.0.1:9998" } 1,
         Action.bind { RemoteAddr := "10.0.0.5:40000", port := 7001, local_port := "7001",
                       target_addr := "" } 2,
         Action.listenStart 0 (some 50)])
      { RemoteAddr := "10.0.0.5:40001", port := 7000, local_port := "",
        target_addr := "127.0.0.1:9999" } 3).1.heap =
      [{ remote_addr := "127.0.0.1:9999", listen_port := 7000, last_active := 3,
         running := true, listener := some 50 },
       { remote_addr := "10.0.0.5:7001", listen_port := 7001, last_active := 2,
         running := true, listener := none }] := by
  obtain ⟨a, p, _, _, _, _, _, ht, _⟩ := bind_bound_frame (run (World.init false 8181)
        [Action.bind { RemoteAddr := "10.0.0.5:40000", port := 7000, local_port := "",
                       target_addr := "127.0.0.1:9998" } 1,
         Action.bind { RemoteAddr := "10.0.0.5:40000", port := 7001, local_port := "7001",
                       target_addr := "" } 2,
         Action.listenStart 0 (some 50)])
      { RemoteAddr := "10.0.0.5:40001", port := 7000, local_port := "",
        target_addr := "127.0.0.1:9999" } 3 (by decide) (by decide)
  exact ⟨ht, by decide⟩

/-! ## The relay `Trans` -/

theorem ioCalls_append (xs ys : List IoEvent) : ioCalls (xs ++ ys) = ioCalls xs ++ ioCalls ys := by
  simp [ioCalls]

theorem loop_spec (conn2 : Nat) (tag : String) (script : List Io) :
    ∀ buf : List UInt8,
      ioCalls (Trans.loop conn2 tag buf script).1 = (relayed script).map (IoEvent.write conn2) ∧
      (Trans.loop conn2 tag buf script).2 = hasError script := by
  induction script with
  | nil => intro buf; exact ⟨rfl, rfl⟩
  | cons io rest ih =>
    intro buf
    cases io with
    | readErr => exact ⟨rfl, rfl⟩
    | read data writeOk =>
      have ih2 := ih (data ++ buf.drop data.length)
      cases writeOk with
      | true =>
        by_cases ht : tag = ""
        · simp [Trans.loop, relayed, hasError, ht, ioCalls] at ih2 ⊢
          exact ih2
        · simp [Trans.loop, relayed, hasError, ht, ioCalls] at ih2 ⊢
          exact ih2
      | false =>
        by_cases ht : tag = ""
        · simp [Trans.loop, relayed, hasError, ht, ioCalls]
        · simp [Trans.loop, relayed, hasError, ht, ioCalls]

theorem loop_no_close (conn2 : Nat) (tag : String) (c : Nat) (script : List Io) :
    ∀ buf : List UInt8, closeCalls c (Trans.loop conn2 tag buf script).1 = 0 := by
  induction script with
  | nil => intro buf; rfl
  | cons io rest ih =>
    intro buf
    cases io with
    | readErr => rfl
    | read data writeOk =>
      have ih2 := ih (data ++ buf.drop data.length)
      cases writeOk with
      | true =>
        by_cases ht : tag = ""
        · simp [Trans.loop, ht, closeCalls] at ih2 ⊢
          exact ih2
        · simp [Trans.loop, ht, closeCalls] at ih2 ⊢
          exact ih2
      | false =>
        by_cases ht : tag = "" <;> simp [Trans.loop, ht, closeCalls]

theorem trans_closeCalls (conn1 conn2 : Nat) (tag : String) (script : List Io) (c : Nat)
    (hstop : (Trans conn1 conn2 tag script).2 = true) :
    closeCalls c (Trans conn1 conn2 tag script).1 =
      (if conn2 = c then 1 else 0) + (if conn1 = c then 1 else 0) := by
  unfold Trans at hstop ⊢
  cases h : (Trans.loop conn2 tag (List.replicate RECV_BUF_LEN 0) script).2 with
  | false => simp [h] at hstop
  | true =>
    have h0 := loop_no_close conn2 tag c script (List.replicate RECV_BUF_LEN 0)
    simp only [closeCalls] at h0
    simp only [h, if_true, closeCalls, List.count_append, h0, zero_add]
    by_cases h2 : conn2 = c <;> by_cases h1 : conn1 = c <;>
      simp [List.count_cons, h1, h2]

/-- C7, as the code has it. For the relay pair `Trans(a, b, _)` and
`Trans(b, a, _)` on two distinct connections, whatever the reads and writes
return: once both relays have returned, each relay has called `Close` exactly
once on `a` and exactly once on `b`, so no stream is left open and `Close` has
been called exactly twice on each of the two streams. -/
theorem trans_pair_closes (a b : Nat) (tagA tagB : String) (sa sb : List Io)
    (hab : a ≠ b)
    (hA : (Trans a b tagA sa).2 = true) (hB : (Trans b a tagB sb).2 = true) :
    closeCalls a (Trans a b tagA sa).1 = 1 ∧ closeCalls b (Trans a b tagA sa).1 = 1 ∧
    closeCalls a (Trans b a tagB sb).1 = 1 ∧ closeCalls b (Trans b a tagB sb).1 = 1 ∧
    closeCalls a ((Trans a b tagA sa).1 ++ (Trans b a tagB sb).1) = 2 ∧
    closeCalls b ((Trans a b tagA sa).1 ++ (Trans b a tagB sb).1) = 2 := by
  have hba : b ≠ a := fun h => hab h.symm
  have h1 := trans_closeCalls a b tagA sa a hA
  have h2 := trans_closeCalls a b tagA sa b hA
  have h3 := trans_closeCalls b a tagB sb a hB
  have h4 := trans_closeCalls b a tagB sb b hB
  simp [hab, hba] at h1 h2 h3 h4
  refine ⟨h1, h2, h3, h4, ?_, ?_⟩
  · have : closeCalls a ((Trans a b tagA sa).1 ++ (Trans b a tagB sb).1) =
        closeCalls a (Trans a b tagA sa).1 + closeCalls a (Trans b a tagB sb).1 := by
      simp [closeCalls]
    rw [this, h1, h3]
  · have : closeCalls b ((Trans a b tagA sa).1 ++ (Trans b a tagB sb).1) =
        closeCalls b (Trans a b tagA sa).1 + closeCalls b (Trans b a tagB sb).1 := by
      simp [closeCalls]
    rw [this, h2, h4]

/-- C7 on connections 1 and 2: the inbound side sends `"hi"` and then ends,
after which the read of the other relay fails. -/
theorem trans_pair_closes_witness :
    closeCalls 1 ((Trans 1 2 "<<" [Io.read [104, 105] true, Io.readErr]).1 ++
      (Trans 2 1 ">>" [Io.readErr]).1) = 2 ∧
    closeCalls 2 ((Trans 1 2 "<<" [Io.read [104, 105] true, Io.readErr]).1 ++
      (Trans 2 1 ">>" [Io.readErr]).1) = 2 :=
  (trans_pair_closes 1 2 "<<" ">>" [Io.read [104, 105] true, Io.readErr] [Io.readErr]
    (by decide) (by decide) (by decide)).2.2.2.2

/-- C7 as stated fails. Connection 1 reaches end of stream, so `Trans(1, 2)`
stops on a read error, and then so does `Trans(2, 1)`: both relays have
returned and `Close` has been called twice on each stream, not once. -/
theorem trans_pair_double_close :
    (Trans 1 2 "" [Io.readErr]).2 = true ∧ (Trans 2 1 "" [Io.readErr]).2 = true ∧
    (Trans 1 2 "" [Io.readErr]).1 ++ (Trans 2 1 "" [Io.readErr]).1 =
      [IoEvent.close 2, IoEvent.close 1, IoEvent.close 1, IoEvent.close 2] ∧
    ¬ (closeCalls 1 ((Trans 1 2 "" [Io.readErr]).1 ++ (Trans 2 1 "" [Io.readErr]).1) = 1 ∧
       closeCalls 2 ((Trans 1 2 "" [Io.readErr]).1 ++ (Trans 2 1 "" [Io.readErr]).1) = 1) := by
  refine ⟨?_, ?_, ?_, ?_⟩
  · decide
  · decide
  · decide
  · decide

/-- C8. For every script of read and write results, every pair of
connections and every tag, the calls `Trans` makes on the connections are:
one `Write` on the destination per successful read, with exactly the bytes
read, in order, up to the first read or write error, and then, if there was an
error, `Close` on the destination and `Close` on the source; `Trans` returns
exactly when there was an error. These calls, and whether `Trans` returns, are
the same for every tag as for the empty tag. -/
theorem trans_relays_reads (conn1 conn2 : Nat) (tag : String) (script : List Io) :
    ioCalls (Trans conn1 conn2 tag script).1 =
      (relayed script).map (IoEvent.write conn2) ++
        (if hasError script then [IoEvent.close conn2, IoEvent.close conn1] else []) ∧
    written conn2 (ioCalls (Trans conn1 conn2 tag script).1) = relayed script ∧
    (Trans conn1 conn2 tag script).2 = hasError script ∧
    ioCalls (Trans conn1 conn2 tag script).1 = ioCalls (Trans conn1 conn2 "" script).1 ∧
    (Trans conn1 conn2 tag script).2 = (Trans conn1 conn2 "" script).2 := by
  have key : ∀ tg : String,
      ioCalls (Trans conn1 conn2 tg script).1 =
        (relayed script).map (IoEvent.write conn2) ++
          (if hasError script then [IoEvent.close conn2, IoEvent.close conn1] else []) ∧
      (Trans conn1 conn2 tg script).2 = hasError script := by
    intro tg
    obtain ⟨h1, h2⟩ := loop_spec conn2 tg script (List.replicate RECV_BUF_LEN 0)
    unfold Trans
    cases he : hasError script with
    | false =>
      rw [he] at h2
      simp [h2, h1]
    | true =>
      rw [he] at h2
      simp only [h2, if_true, ioCalls_append, h1]
      exact ⟨rfl, trivial⟩
  have hw : ∀ (l : List (List UInt8)) (tail : List IoEvent),
      (∀ e ∈ tail, ∀ c d, e ≠ IoEvent.write c d) →
      written conn2 (l.map (IoEvent.write conn2) ++ tail) = l := by
    intro l tail htail
    induction l with
    | nil =>
      induction tail with
      | nil => rfl
      | cons e es ih =>
        have he := htail e (List.mem_cons_self _ _)
        have ih2 := ih (fun x hx => htail x (List.mem_cons_of_mem _ hx))
        cases e with
        | print t d => simpa [written] using ih2
        | write c d => exact absurd rfl (he c d)
        | close c => simpa [written] using ih2
    | cons d ds ih => simp [written, ih]
  refine ⟨(key tag).1, ?_, (key tag).2, ?_, ?_⟩
  · rw [(key tag).1]
    apply hw
    intro e he c d
    split at he
    · simp at he
      rcases he with rfl | rfl <;> simp
    · simp at he
  · rw [(key tag).1, (key "").1]
  · rw [(key tag).2, (key "").2]

/-! ## The accept loop `Serv.Listen` -/

theorem listenIter_accepted (w : World) (tid a l : Nat) (sd : Bool) (p : Port)
    (ht : w.tasks[tid]? = some { port := a, showdata := sd, pc := ListenPc.looping l })
    (hp : w.heap[a]? = some p) (hr : p.running = true) (conn : Nat) (d : Option Nat) :
    Serv.ListenIter w tid (AcceptOutcome.accepted conn d) =
      (w, acceptedEvents p.remote_addr sd conn d) := by
  simp [Serv.ListenIter, ht, hp, hr]

theorem listenIter_acceptErr (w : World) (tid a l : Nat) (sd : Bool) (p : Port)
    (ht : w.tasks[tid]? = some { port := a, showdata := sd, pc := ListenPc.looping l })
    (hp : w.heap[a]? = some p) (hr : p.running = true) :
    Serv.ListenIter w tid AcceptOutcome.acceptErr =
      ({ w with
          tasks := w.tasks.set tid
            ({ port := a, showdata := sd, pc := ListenPc.returned } : ListenTask) }, []) := by
  simp [Serv.ListenIter, ht, hp, hr]

theorem listenIter_returned (w : World) (tid a : Nat) (sd : Bool)
    (ht : w.tasks[tid]? = some { port := a, showdata := sd, pc := ListenPc.returned })
    (o : AcceptOutcome) : Serv.ListenIter w tid o = (w, []) := by
  simp [Serv.ListenIter, ht]

theorem listenRun_returned (w : World) (tid a : Nat) (sd : Bool)
    (ht : w.tasks[tid]? = some { port := a, showdata := sd, pc := ListenPc.returned })
    (outcomes : List AcceptOutcome) : Serv.ListenRun w tid outcomes = (w, []) := by
  induction outcomes with
  | nil => rfl
  | cons o os ih => simp [Serv.ListenRun, listenIter_returned w tid a sd ht, ih]

/-- C10. Take a goroutine at the head of the accept loop of a binding that is
running, and let it go through the loop for any sequence of accept and dial
outcomes. A failed dial dials, closes the inbound connection, starts no relay
and leaves the goroutine in the loop; a successful dial starts exactly the
two relays `Trans(conn, conn1, tag_up)` and `Trans(conn1, conn, tag_down)`
and leaves the goroutine in the loop; an accept error ends the loop. Over the
whole sequence the loop does what is described up to the first accept error
and nothing after it, it has ended exactly when the sequence holds an accept
error, and it has started two relays per successful dial. -/
theorem listen_loop_outcomes (w : World) (tid a l : Nat) (sd : Bool) (p : Port)
    (ht : w.tasks[tid]? = some { port := a, showdata := sd, pc := ListenPc.looping l })
    (hp : w.heap[a]? = some p) (hr : p.running = true) :
    (∀ conn, Serv.ListenIter w tid (AcceptOutcome.accepted conn none) =
      (w, [Event.dial p.remote_addr, Event.connClose conn])) ∧
    (∀ conn conn1, Serv.ListenIter w tid (AcceptOutcome.accepted conn (some conn1)) =
      (w, [Event.dial p.remote_addr, Event.goTrans conn conn1 (tag_up sd),
           Event.goTrans conn1 conn (tag_down sd)])) ∧
    ((Serv.ListenIter w tid AcceptOutcome.acceptErr).2 = [] ∧
      (Serv.ListenIter w tid AcceptOutcome.acceptErr).1.tasks[tid]? =
        some { port := a, showdata := sd, pc := ListenPc.returned }) ∧
    ∀ outcomes : List AcceptOutcome,
      (Serv.ListenRun w tid outcomes).2 = loopEvents p.remote_addr sd outcomes ∧
      (Serv.ListenRun w tid outcomes).1.tasks[tid]? =
        some { port := a, showdata := sd,
               pc := if AcceptOutcome.acceptErr ∈ outcomes then ListenPc.returned
                     else ListenPc.looping l } ∧
      relaysStarted (Serv.ListenRun w tid outcomes).2 = 2 * dialsOk outcomes := by
  have hlt : tid < w.tasks.length := (List.getElem?_eq_some.1 ht).1
  refine ⟨fun conn => listenIter_accepted w tid a l sd p ht hp hr conn none,
    fun conn conn1 => listenIter_accepted w tid a l sd p ht hp hr conn (some conn1),
    ?_, ?_⟩
  · rw [listenIter_acceptErr w tid a l sd p ht hp hr]
    exact ⟨rfl, by simp [hlt]⟩
  · intro outcomes
    induction outcomes with
    | nil => exact ⟨rfl, by simpa using ht, rfl⟩
    | cons o os ih =>
      cases o with
      | acceptErr =>
        have hret : ({ w with
            tasks := w.tasks.set tid
              ({ port := a, showdata := sd, pc := ListenPc.returned } : ListenTask) }
              : World).tasks[tid]? =
            some { port := a, showdata := sd, pc := ListenPc.returned } := by
          simp [hlt]
        simp only [Serv.ListenRun, listenIter_acceptErr w tid a l sd p ht hp hr,
          listenRun_returned _ tid a sd hret os]
        exact ⟨rfl, by simp [hlt], rfl⟩
      | accepted conn d =>
        obtain ⟨ih1, ih2, ih3⟩ := ih
        simp only [Serv.ListenRun, listenIter_accepted w tid a l sd p ht hp hr conn d]
        cases d with
        | none =>
          refine ⟨?_, ?_, ?_⟩
          · simp [acceptedEvents, loopEvents, ih1]
          · simpa using ih2
          · simp [acceptedEvents, relaysStarted, dialsOk, ih3]
        | some conn1 =>
          refine ⟨?_, ?_, ?_⟩
          · simp [acceptedEvents, loopEvents, ih1]
          · simpa using ih2
          · simp [acceptedEvents, relaysStarted, dialsOk, ih3]
            ring

/-- C10 on port 7000 bound to `127.0.0.1:9999`: a failed dial, a successful
dial, an accept error, and a connection that comes too late. -/
theorem listen_loop_outcomes_witness :
    (Serv.ListenRun (run (World.init true 8181)
        [Action.bind { RemoteAddr := "10.0.0.5:40000", port := 7000, local_port := "",
                       target_addr := "127.0.0.1:9999" } 1,
         Action.listenStart 0 (some 50)]) 0
      [AcceptOutcome.accepted 10 none, AcceptOutcome.accepted 11 (some 12),
       AcceptOutcome.acceptErr, AcceptOutcome.accepted 13 (some 14)]).2 =
      [Event.dial "127.0.0.1:9999", Event.connClose 10,
       Event.dial "127.0.0.1:9999", Event.goTrans 11 12 "<<", Event.goTrans 12 11 ">>"] :=
  ((listen_loop_outcomes (run (World.init true 8181)
        [Action.bind { RemoteAddr := "10.0.0.5:40000", port := 7000, local_port := "",
                       target_addr := "127.0.0.1:9999" } 1,
         Action.listenStart 0 (some 50)]) 0 0 50 true
      { remote_addr := "127.0.0.1:9999", listen_port := 7000, last_active := 1,
        running := true, listener := some 50 } (by decide) (by decide) rfl).2.2.2
    [AcceptOutcome.accepted 10 none, AcceptOutcome.accepted 11 (some 12),
     AcceptOutcome.acceptErr, AcceptOutcome.accepted 13 (some 14)]).1

/-! ## The address the accept loop dials -/

/-- Overwriting object `b` by an object with the same `listen_port` and
`remote_addr` keeps the `listen_port` and `remote_addr` of every object. -/
theorem set_keeps_addr {heap : List Port} {b : Nat} {pb : Port} (q2 : Port)
    (hb : heap[b]? = some pb) (h1 : q2.listen_port = pb.listen_port)
    (h2 : q2.remote_addr = pb.remote_addr) {a : Nat} {q : Port} (ha : heap[a]? = some q) :
    ∃ q1, (heap.set b q2)[a]? = some q1 ∧ q1.listen_port = q.listen_port ∧
      q1.remote_addr = q.remote_addr := by
  by_cases hab : b = a
  · subst hab
    have hlt : b < heap.length := (List.getElem?_eq_some.1 hb).1
    rw [hb] at ha
    have : pb = q := Option.some.inj ha
    subst this
    exact ⟨q2, by simp [hlt], h1, h2⟩
  · exact ⟨q, by simp [List.getElem?_set, hab, ha], rfl, rfl⟩

/-- No action other than a `/bind` for port `p` changes the `remote_addr` (or
the `listen_port`) of an object whose `listen_port` is `p`. -/
theorem step_keeps_addr (w : World) (act : Action) (hwf : WF w) {p : Int}
    (hact : bindsPort p act = false) {a : Nat} {q : Port}
    (ha : w.heap[a]? = some q) (hq : q.listen_port = p) :
    ∃ q1, (step w act).heap[a]? = some q1 ∧ q1.listen_port = p ∧
      q1.remote_addr = q.remote_addr := by
  have same : ∃ q1, w.heap[a]? = some q1 ∧ q1.listen_port = p ∧
      q1.remote_addr = q.remote_addr := ⟨q, ha, hq, rfl⟩
  have retag : ∀ {h2 : List Port}, (∃ q1, h2[a]? = some q1 ∧ q1.listen_port = q.listen_port ∧
      q1.remote_addr = q.remote_addr) → ∃ q1, h2[a]? = some q1 ∧ q1.listen_port = p ∧
      q1.remote_addr = q.remote_addr := by
    rintro h2 ⟨q1, e1, e2, e3⟩
    exact ⟨q1, e1, e2.trans hq, e3⟩
  unfold step
  split
  · exact same
  · cases act with
    | bind r now =>
      have hne : r.port ≠ p := by simpa [bindsPort] using hact
      show ∃ q1, (Serv.Bind w r now).1.heap[a]? = some q1 ∧ _
      cases hl : w.v.ports.lookup r.port with
      | none =>
        rw [bind_fresh_eq w r now (AList.lookup_eq_none.1 hl)]
        have hlt : a < w.heap.length := (List.getElem?_eq_some.1 ha).1
        exact ⟨q, by simp [List.getElem?_append_left hlt, ha], hq, rfl⟩
      | some b =>
        obtain ⟨pb, hpb, hk⟩ := lookup_get hwf hl
        rw [bind_bound_eq w r now hl hpb]
        have hab : b ≠ a := by
          intro hab
          subst hab
          rw [hpb] at ha
          have : pb = q := Option.some.inj ha
          subst this
          exact hne (hk.symm.trans hq)
        exact ⟨q, by simp [List.getElem?_set, hab, ha], hq, rfl⟩
    | unbind r =>
      cases hl : w.v.ports.lookup r.port with
      | none => simpa [Serv.Unbind, hl] using same
      | some b =>
        obtain ⟨pb, hpb, _⟩ := lookup_get hwf hl
        have hs := retag (set_keeps_addr { pb with running := false } hpb rfl rfl ha)
        cases hlis : pb.listener with
        | none => simpa [Serv.Unbind, hl, hpb, hlis] using hs
        | some l => simpa [Serv.Unbind, hl, hpb, hlis] using hs
    | list => exact same
    | listenStart tid res =>
      show ∃ q1, (Serv.ListenStart w tid res).heap[a]? = some q1 ∧ _
      unfold Serv.ListenStart
      split
      · split
        · exact same
        · exact same
        · next pb l hpb =>
          exact retag (set_keeps_addr { pb with listener := some l } hpb rfl rfl ha)
      · exact same
    | listenIter tid o =>
      show ∃ q1, (Serv.ListenIter w tid o).1.heap[a]? = some q1 ∧ _
      rw [(listenIter_heap w tid o).1]
      exact same

theorem run_keeps_addr (acts : List Action) {p : Int} {a : Nat} :
    ∀ (w : World) (q : Port), WF w → (∀ act ∈ acts, bindsPort p act = false) →
      w.heap[a]? = some q → q.listen_port = p →
      ∃ q1, (run w acts).heap[a]? = some q1 ∧ q1.listen_port = p ∧
        q1.remote_addr = q.remote_addr := by
  induction acts with
  | nil => intro w q _ _ ha hq; exact ⟨q, ha, hq, rfl⟩
  | cons act acts ih =>
    intro w q hwf hacts ha hq
    obtain ⟨q1, h1, h2, h3⟩ :=
      step_keeps_addr w act hwf (hacts act (List.mem_cons_self _ _)) ha hq
    obtain ⟨q2, k1, k2, k3⟩ := ih (step w act) q1 (wf_step w act hwf)
      (fun x hx => hacts x (List.mem_cons_of_mem _ hx)) h1 h2
    exact ⟨q2, k1, k2, k3.trans h3⟩

/-! ## The goroutine that accepts on a port holds the stored binding -/

/-- Overwriting object `b` by an object with the same `listen_port` that is
running only if `b` was, keeps `RunningStored` for the same map. -/
theorem stored_set {ports : AList (fun _ : Int => Nat)} {heap : List Port} {b : Nat}
    {pb : Port} (q2 : Port) (hb : heap[b]? = some pb)
    (h1 : q2.listen_port = pb.listen_port) (h2 : q2.running = true → pb.running = true)
    (h : ∀ a q, heap[a]? = some q → q.running = true → ports.lookup q.listen_port = some a) :
    ∀ a q, (heap.set b q2)[a]? = some q → q.running = true →
      ports.lookup q.listen_port = some a := by
  intro a q ha hr
  by_cases hab : b = a
  · subst hab
    have hlt : b < heap.length := (List.getElem?_eq_some.1 hb).1
    rw [List.getElem?_set_self hlt] at ha
    have hq : q2 = q := Option.some.inj ha
    subst hq
    rw [h1]
    exact h b pb hb (h2 hr)
  · rw [List.getElem?_set_ne hab] at ha
    exact h a q ha hr

theorem runningStored_init (showdata : Bool) (mng_port : Int) :
    RunningStored (World.init showdata mng_port) := by
  intro a q ha _
  simp [World.init] at ha

theorem runningStored_bind (w : World) (r : Request) (now : Nat)
    (hwf : WF w) (h : RunningStored w) : RunningStored (Serv.Bind w r now).1 := by
  cases hl : w.v.ports.lookup r.port with
  | none =>
    rw [bind_fresh_eq w r now (AList.lookup_eq_none.1 hl)]
    intro a q ha hr
    by_cases hlt : a < w.heap.length
    · have ha2 : w.heap[a]? = some q := by
        have := ha
        simp only [List.getElem?_append_left hlt] at this
        exact this
      have hold := h a q ha2 hr
      have hne : q.listen_port ≠ r.port := by
        intro hc
        rw [hc, hl] at hold
        cases hold
      show (w.v.ports.insert r.port w.heap.length).lookup q.listen_port = some a
      rw [AList.lookup_insert_ne hne]
      exact hold
    · have hlen := (List.getElem?_eq_some.1 ha).1
      have hal : a = w.heap.length := by
        simp at hlen
        omega
      subst hal
      have ha3 : (w.heap ++ [(⟨Serv.bindTarget r, r.port, now, true, none⟩ : Port)])[w.heap.length]? =
          some q := ha
      rw [List.getElem?_concat_length] at ha3
      rw [← Option.some.inj ha3]
      exact AList.lookup_insert _
  | some b =>
    obtain ⟨pb, hpb, _⟩ := lookup_get hwf hl
    rw [bind_bound_eq w r now hl hpb]
    exact stored_set { pb with remote_addr := Serv.bindTarget r, last_active := now }
      hpb rfl (fun hr => hr) h

theorem runningStored_unbind (w : World) (r : Request)
    (hwf : WF w) (h : RunningStored w) : RunningStored (Serv.Unbind w r).1 := by
  cases hl : w.v.ports.lookup r.port with
  | none => simpa [Serv.Unbind, hl] using h
  | some b =>
    obtain ⟨pb, hpb, _⟩ := lookup_get hwf hl
    have hs : ∀ a q, (w.heap.set b ({ pb with running := false } : Port))[a]? = some q →
        q.running = true → w.v.ports.lookup q.listen_port = some a :=
      stored_set { pb with running := false } hpb rfl (fun hr => by cases hr) h
    cases hlis : pb.listener with
    | none =>
      have : (Serv.Unbind w r).1 =
          { w with heap := w.heap.set b ({ pb with running := false } : Port) } := by
        simp [Serv.Unbind, hl, hpb, hlis]
      rw [this]
      exact hs
    | some l =>
      rw [unbind_listening w r hl hpb hlis]
      intro a q ha hr
      have hold := hs a q ha hr
      have hne : q.listen_port ≠ r.port := by
        intro hc
        rw [hc, hl] at hold
        have hba : b = a := Option.some.inj hold
        subst hba
        have hlt : b < w.heap.length := (List.getElem?_eq_some.1 hpb).1
        have ha2 : (w.heap.set b ({ pb with running := false } : Port))[b]? = some q := ha
        rw [List.getElem?_set_self hlt] at ha2
        have hq := Option.some.inj ha2
        rw [← hq] at hr
        cases hr
      show (w.v.ports.erase r.port).lookup q.listen_port = some a
      rw [AList.lookup_erase_ne hne]
      exact hold

theorem runningStored_listenStart (w : World) (tid : Nat) (res : Option Nat)
    (h : RunningStored w) : RunningStored (Serv.ListenStart w tid res) := by
  unfold Serv.ListenStart
  split
  · split
    · exact h
    · exact h
    · next pb l hpb =>
      exact stored_set { pb with listener := some l } hpb rfl (fun hr => hr) h
  · exact h

theorem runningStored_step (w : World) (act : Action) (hwf : WF w) (h : RunningStored w) :
    RunningStored (step w act) := by
  unfold step
  split
  · exact h
  · cases act with
    | bind r now => exact runningStored_bind w r now hwf h
    | unbind r => exact runningStored_unbind w r hwf h
    | list => exact h
    | listenStart tid res => exact runningStored_listenStart w tid res h
    | listenIter tid o =>
      show RunningStored (Serv.ListenIter w tid o).1
      have hh := listenIter_heap w tid o
      unfold RunningStored
      rw [hh.1, hh.2]
      exact h

theorem runningStored_run (acts : List Action) :
    ∀ (w : World), WF w → RunningStored w → RunningStored (run w acts) := by
  induction acts with
  | nil => intro w _ h; exact h
  | cons act acts ih =>
    intro w hwf h
    exact ih (step w act) (wf_step w act hwf) (runningStored_step w act hwf h)

/-- In every reachable state a running `Port` object is the one the map
stores under its `listen_port`. -/
theorem runningStored_of_reachable {w : World} (h : Reachable w) : RunningStored w := by
  obtain ⟨sd, mp, acts, rfl⟩ := h
  exact runningStored_run acts _ (wf_init sd mp) (runningStored_init sd mp)

/-- No action other than a `/bind` for port `p` puts a pointer under key `p`:
what the map holds for `p` afterwards, it held before. -/
theorem lookup_step_of_not_bind (w : World) (act : Action) {p : Int}
    (hact : bindsPort p act = false) {b : Nat}
    (hl : (step w act).v.ports.lookup p = some b) : w.v.ports.lookup p = some b := by
  unfold step at hl
  split at hl
  · exact hl
  · cases act with
    | bind r now =>
      have hne : p ≠ r.port := by
        have : r.port ≠ p := by simpa [bindsPort] using hact
        exact fun hc => this hc.symm
      have hl2 : (Serv.Bind w r now).1.v.ports.lookup p = some b := hl
      cases hlr : w.v.ports.lookup r.port with
      | none =>
        rw [bind_fresh_eq w r now (AList.lookup_eq_none.1 hlr)] at hl2
        have hl3 : (w.v.ports.insert r.port w.heap.length).lookup p = some b := hl2
        rw [AList.lookup_insert_ne hne] at hl3
        exact hl3
      | some c =>
        cases hc : w.heap[c]? with
        | none => simpa [Serv.Bind, hlr, hc] using hl2
        | some pc => simpa [Serv.Bind, hlr, hc] using hl2
    | unbind r =>
      have hl2 : (Serv.Unbind w r).1.v.ports.lookup p = some b := hl
      cases hlr : w.v.ports.lookup r.port with
      | none => simpa [Serv.Unbind, hlr] using hl2
      | some c =>
        cases hc : w.heap[c]? with
        | none => simpa [Serv.Unbind, hlr, hc] using hl2
        | some pc =>
          cases hlis : pc.listener with
          | none => simpa [Serv.Unbind, hlr, hc, hlis] using hl2
          | some l =>
            rw [unbind_listening w r hlr hc hlis] at hl2
            have hl3 : (w.v.ports.erase r.port).lookup p = some b := hl2
            by_cases hpr : p = r.port
            · rw [hpr, AList.lookup_erase] at hl3
              cases hl3
            · rw [AList.lookup_erase_ne hpr] at hl3
              exact hl3
    | list => exact hl
    | listenStart tid res =>
      have hl2 : (Serv.ListenStart w tid res).v.ports.lookup p = some b := hl
      unfold Serv.ListenStart at hl2
      split at hl2
      · split at hl2
        · exact hl2
        · exact hl2
        · exact hl2
      · exact hl2
    | listenIter tid o =>
      have hl2 : (Serv.ListenIter w tid o).1.v.ports.lookup p = some b := hl
      rw [(listenIter_heap w tid o).2] at hl2
      exact hl2

theorem lookup_run_of_not_bind (acts : List Action) {p : Int} {b : Nat} :
    ∀ (w : World), (∀ act ∈ acts, bindsPort p act = false) →
      (run w acts).v.ports.lookup p = some b → w.v.ports.lookup p = some b := by
  induction acts with
  | nil => intro w _ h; exact h
  | cons act acts ih =>
    intro w hacts h
    exact lookup_step_of_not_bind w act (hacts act (List.mem_cons_self _ _))
      (ih (step w act) (fun x hx => hacts x (List.mem_cons_of_mem _ hx)) h)

/-- C9. A pass through the accept loop that accepts a connection dials the
`remote_addr` that the goroutine's `Port` object holds at that pass, and no
other address. The goroutine that `/bind` starts for a new port holds the
very object that the map stores for the port. And in every reachable state,
after `/bind` for port `p` and a second `/bind` for `p`, and after any further
actions that are not a `/bind` for `p`: every goroutine in the accept loop of
a `Port` object with `listen_port = p` (every goroutine accepting on `p`)
dials nothing but the target of the second request; if its object is running,
so that it does accept, that object holds the second target and the
connection is dialled to it. -/
theorem listen_dials_current_target :
    (∀ (w : World) (tid a l : Nat) (sd : Bool) (q : Port) (conn : Nat) (d : Option Nat),
      w.tasks[tid]? = some { port := a, showdata := sd, pc := ListenPc.looping l } →
      w.heap[a]? = some q → q.running = true →
      (Serv.ListenIter w tid (AcceptOutcome.accepted conn d)).2 =
          acceptedEvents q.remote_addr sd conn d ∧
        ∀ addr, Event.dial addr ∈ (Serv.ListenIter w tid (AcceptOutcome.accepted conn d)).2 ↔
          addr = q.remote_addr) ∧
    (∀ (w : World) (r : Request) (now : Nat), r.port ∉ w.v.ports →
      ∃ a, (Serv.Bind w r now).1.v.ports.lookup r.port = some a ∧
        (Serv.Bind w r now).1.tasks =
          w.tasks ++ [{ port := a, showdata := w.v.showdata, pc := ListenPc.entry }]) ∧
    ∀ (w : World) (r1 r2 : Request) (now1 now2 : Nat), Reachable w → r2.port = r1.port →
      ∀ (acts : List Action), (∀ act ∈ acts, bindsPort r1.port act = false) →
        ∀ (tid b l : Nat) (sd : Bool) (q : Port) (conn : Nat) (d : Option Nat),
          (run (Serv.Bind (Serv.Bind w r1 now1).1 r2 now2).1 acts).tasks[tid]? =
            some { port := b, showdata := sd, pc := ListenPc.looping l } →
          (run (Serv.Bind (Serv.Bind w r1 now1).1 r2 now2).1 acts).heap[b]? = some q →
          q.listen_port = r1.port →
          (∀ addr, Event.dial addr ∈
              (Serv.ListenIter (run (Serv.Bind (Serv.Bind w r1 now1).1 r2 now2).1 acts)
                tid (AcceptOutcome.accepted conn d)).2 →
            addr = Serv.bindTarget r2) ∧
          (q.running = true →
            (run (Serv.Bind (Serv.Bind w r1 now1).1 r2 now2).1 acts).v.ports.lookup r1.port =
              some b ∧
            q.remote_addr = Serv.bindTarget r2 ∧
            (Serv.ListenIter (run (Serv.Bind (Serv.Bind w r1 now1).1 r2 now2).1 acts)
              tid (AcceptOutcome.accepted conn d)).2 =
              acceptedEvents (Serv.bindTarget r2) sd conn d) := by
  have part1 : ∀ (w : World) (tid a l : Nat) (sd : Bool) (q : Port) (conn : Nat)
      (d : Option Nat),
      w.tasks[tid]? = some { port := a, showdata := sd, pc := ListenPc.looping l } →
      w.heap[a]? = some q → q.running = true →
      (Serv.ListenIter w tid (AcceptOutcome.accepted conn d)).2 =
          acceptedEvents q.remote_addr sd conn d ∧
        ∀ addr, Event.dial addr ∈ (Serv.ListenIter w tid (AcceptOutcome.accepted conn d)).2 ↔
          addr = q.remote_addr := by
    intro w tid a l sd q conn d ht hq hr
    rw [listenIter_accepted w tid a l sd q ht hq hr conn d]
    refine ⟨rfl, fun addr => ?_⟩
    cases d <;> simp [acceptedEvents]
  refine ⟨part1, ?_, ?_⟩
  · intro w r now hfresh
    rw [bind_fresh_eq w r now hfresh]
    exact ⟨w.heap.length, AList.lookup_insert _, rfl⟩
  intro w r1 r2 now1 now2 hreach hport acts hacts tid b l sd q conn d ht hq hqp
  have hwf := wf_of_reachable hreach
  have hrs := runningStored_of_reachable hreach
  have hwf1 := wf_bind w r1 now1 hwf
  have hrs1 := runningStored_bind w r1 now1 hwf hrs
  have hwf2 := wf_bind _ r2 now2 hwf1
  have hrs2 := runningStored_bind _ r2 now2 hwf1 hrs1
  have hrsW := runningStored_run acts _ hwf2 hrs2
  cases hr : q.running with
  | false =>
    have hnone : (Serv.ListenIter (run (Serv.Bind (Serv.Bind w r1 now1).1 r2 now2).1 acts)
        tid (AcceptOutcome.accepted conn d)).2 = [] := by
      simp [Serv.ListenIter, ht, hq, hr]
    refine ⟨?_, ?_⟩
    · intro addr hmem
      rw [hnone] at hmem
      simp at hmem
    · intro hc
      simp [hr] at hc
  | true =>
    have hlW := hrsW b q hq hr
    rw [hqp] at hlW
    have hl2 := lookup_run_of_not_bind acts _ hacts hlW
    obtain ⟨a, q0, hl, hq0, hk, hta, _⟩ := bind_result _ r2 now2 hwf1
    rw [hport] at hl hk
    have hab : a = b := Option.some.inj (hl.symm.trans hl2)
    subst hab
    obtain ⟨q1, hq1, _, hqa⟩ := run_keeps_addr acts _ q0 hwf2 hacts hq0 hk
    have hqq : q1 = q := Option.some.inj (hq1.symm.trans hq)
    subst hqq
    have hqt : q1.remote_addr = Serv.bindTarget r2 := hqa.trans hta
    obtain ⟨h1, h2⟩ := part1 _ tid a l sd q1 conn d ht hq hr
    refine ⟨?_, ?_⟩
    · intro addr hmem
      rw [← hqt]
      exact (h2 addr).1 hmem
    · intro _
      refine ⟨hlW, hqt, ?_⟩
      rw [h1, hqt]

/-- C9 from the empty registry: `/bind` 7000 to `127.0.0.1:9998`, `/bind` 7000
to `127.0.0.1:9999`, then the listener starts and port 7001 is bound; the
goroutine accepting on 7000 dials `127.0.0.1:9999` for the connection it
accepts. -/
theorem listen_dials_current_target_witness :
    (Serv.ListenIter (run (World.init false 8181)
        [Action.bind { RemoteAddr := "10.0.0.5:40000", port := 7000, local_port := "",
                       target_addr := "127.0.0.1:9999" } 1,
         Action.listenStart 0 (some 50)]) 0 (AcceptOutcome.accepted 10 (some 11))).2 =
      [Event.dial "127.0.0.1:9999", Event.goTrans 10 11 "", Event.goTrans 11 10 ""] ∧
    (∃ a, (Serv.Bind (World.init false 8181)
        { RemoteAddr := "10.0.0.5:40000", port := 7000, local_port := "",
          target_addr := "127.0.0.1:9998" } 1).1.v.ports.lookup 7000 = some a ∧
      (Serv.Bind (World.init false 8181)
        { RemoteAddr := "10.0.0.5:40000", port := 7000, local_port := "",
          target_addr := "127.0.0.1:9998" } 1).1.tasks =
        [{ port := a, showdata := false, pc := ListenPc.entry }]) ∧
    (Serv.ListenIter (run (Serv.Bind (Serv.Bind (World.init false 8181)
        { RemoteAddr := "10.0.0.5:40000", port := 7000, local_port := "",
          target_addr := "127.0.0.1:9998" } 1).1
        { RemoteAddr := "10.0.0.5:40001", port := 7000, local_port := "",
          target_addr := "127.0.0.1:9999" } 2).1
      [Action.listenStart 0 (some 50),
       Action.bind { RemoteAddr := "10.0.0.5:40000", port := 7001, local_port := "7001",
                     target_addr := "" } 3])
      0 (AcceptOutcome.accepted 10 (some 11))).2 =
      [Event.dial "127.0.0.1:9999", Event.goTrans 10 11 "", Event.goTrans 11 10 ""] :=
  ⟨(listen_dials_current_target.1 (run (World.init false 8181)
        [Action.bind { RemoteAddr := "10.0.0.5:40000", port := 7000, local_port := "",
                       target_addr := "127.0.0.1:9999" } 1,
         Action.listenStart 0 (some 50)]) 0 0 50 false
      { remote_addr := "127.0.0.1:9999", listen_port := 7000, last_active := 1,
        running := true, listener := some 50 } 10 (some 11)
      (by decide) (by decide) rfl).1,
    listen_dials_current_target.2.1 (World.init false 8181)
      { RemoteAddr := "10.0.0.5:40000", port := 7000, local_port := "",
        target_addr := "127.0.0.1:9998" } 1 (by decide),
    ((listen_dials_current_target.2.2 (World.init false 8181)
      { RemoteAddr := "10.0.0.5:40000", port := 7000, local_port := "",
        target_addr := "127.0.0.1:9998" }
      { RemoteAddr := "10.0.0.5:40001", port := 7000, local_port := "",
        target_addr := "127.0.0.1:9999" } 1 2 ⟨false, 8181, [], rfl⟩ rfl
      [Action.listenStart 0 (some 50),
       Action.bind { RemoteAddr := "10.0.0.5:40000", port := 7001, local_port := "7001",
                     target_addr := "" } 3]
      (by decide) 0 0 50 false
      { remote_addr := "127.0.0.1:9999", listen_port := 7000, last_active := 2,
        running := true, listener := some 50 } 10 (some 11)
      (by decide) (by decide) rfl).2 rfl).2.2⟩

/-! ## The `listen_port` and `running` of the stored bindings -/

/-- In every reachable state the binding stored under key `k` is a `Port`
object whose `listen_port` is `k`. -/
theorem reachable_listen_port {w : World} (h : Reachable w) {k : Int} {a : Nat}
    (hl : w.v.ports.lookup k = some a) :
    ∃ p, w.heap[a]? = some p ∧ p.listen_port = k :=
  lookup_get (wf_of_reachable h) hl

theorem getElem?_set_running {heap : List Port} {a : Nat} {p : Port} (q : Port)
    (ha : heap[a]? = some p) (hq : q.running = p.running) (b : Nat) :
    ((heap.set a q)[b]?).map Port.running = (heap[b]?).map Port.running := by
  rw [List.getElem?_set]
  by_cases hab : a = b
  · subst hab
    have hlt : a < heap.length := (List.getElem?_eq_some.1 ha).1
    simp [hlt, ha, hq]
  · simp [hab]

/-- A step that is not an `/unbind` that panics keeps every stored binding
running. -/
theorem step_keeps_running (w : World) (act : Action) (hwf : WF w) (hrun : AllRunning w)
    (hact : ∀ r, act = Action.unbind r → (Serv.Unbind w r).2 ≠ Reply.panicked) :
    AllRunning (step w act) := by
  unfold step
  split
  · exact hrun
  · cases act with
    | bind r now =>
      show AllRunning (Serv.Bind w r now).1
      cases hl : w.v.ports.lookup r.port with
      | none =>
        have hfresh := AList.lookup_eq_none.1 hl
        rw [bind_fresh_eq w r now hfresh]
        intro e he
        simp only [AList.insert_entries_of_neg hfresh, List.mem_cons] at he
        rcases he with rfl | he
        · simp
        · show ((w.heap ++ [_])[e.2]?).map Port.running = some true
          rw [List.getElem?_append_left (valid_lt hwf he)]
          exact hrun e he
      | some a =>
        obtain ⟨p, hp, _⟩ := lookup_get hwf hl
        rw [bind_bound_eq w r now hl hp]
        intro e he
        show ((w.heap.set a _)[e.2]?).map Port.running = some true
        rw [getElem?_set_running
          { p with remote_addr := Serv.bindTarget r, last_active := now } hp rfl]
        exact hrun e he
    | unbind r =>
      show AllRunning (Serv.Unbind w r).1
      have hret := hact r rfl
      cases hl : w.v.ports.lookup r.port with
      | none => simpa [Serv.Unbind, hl] using hrun
      | some a =>
        obtain ⟨p, hp, hk⟩ := lookup_get hwf hl
        cases hlis : p.listener with
        | none => simp [Serv.Unbind, hl, hp, hlis] at hret
        | some l =>
          rw [unbind_listening w r hl hp hlis]
          intro e he
          have he2 : e ∈ w.v.ports.entries := (List.kerase_sublist _ _).subset he
          have hne : e.1 ≠ r.port := by
            intro hc
            have hmem : e.1 ∈ (List.kerase r.port w.v.ports.entries).keys :=
              List.mem_keys_of_mem he
            rw [hc] at hmem
            exact List.not_mem_keys_kerase r.port w.v.ports.nodupKeys hmem
          obtain ⟨q, hq, hqk⟩ := valid_get hwf he2
          have hab : a ≠ e.2 := by
            intro hab
            rw [← hab, hp] at hq
            have : p = q := Option.some.inj hq
            subst this
            exact hne (hqk.symm.trans hk)
          show ((w.heap.set a _)[e.2]?).map Port.running = some true
          rw [List.getElem?_set_ne hab]
          exact hrun e he2
    | list => exact hrun
    | listenStart tid res =>
      show AllRunning (Serv.ListenStart w tid res)
      unfold Serv.ListenStart
      split
      · split
        · exact hrun
        · exact hrun
        · next p l hp =>
          intro e he
          show ((w.heap.set _ _)[e.2]?).map Port.running = some true
          rw [getElem?_set_running { p with listener := some l } hp rfl]
          exact hrun e he
      · exact hrun
    | listenIter tid o =>
      show AllRunning (Serv.ListenIter w tid o).1
      have h := listenIter_heap w tid o
      unfold AllRunning
      rw [h.1, h.2]
      exact hrun

/-- As long as no `/unbind` panics, every stored binding is running: in the
handler of `Serv.Unbind` that returns, `running = false` and `delete` go
together. -/
theorem run_keeps_running (acts : List Action) :
    ∀ (w : World), WF w → AllRunning w → unbindsReturn w acts → AllRunning (run w acts) := by
  induction acts with
  | nil => intro w _ h _; exact h
  | cons act acts ih =>
    intro w hwf hrun hq
    cases act with
    | unbind r =>
      have hq2 : (Serv.Unbind w r).2 ≠ Reply.panicked ∧
          unbindsReturn (step w (Action.unbind r)) acts := hq
      refine ih _ (wf_step w _ hwf) (step_keeps_running w _ hwf hrun ?_) hq2.2
      intro r2 heq
      cases heq
      exact hq2.1
    | bind r now =>
      have hq2 : unbindsReturn (step w (Action.bind r now)) acts := hq
      exact ih _ (wf_step w _ hwf)
        (step_keeps_running w _ hwf hrun (fun r2 heq => by cases heq)) hq2
    | list =>
      have hq2 : unbindsReturn (step w Action.list) acts := hq
      exact ih _ (wf_step w _ hwf)
        (step_keeps_running w _ hwf hrun (fun r2 heq => by cases heq)) hq2
    | listenStart tid res =>
      have hq2 : unbindsReturn (step w (Action.listenStart tid res)) acts := hq
      exact ih _ (wf_step w _ hwf)
        (step_keeps_running w _ hwf hrun (fun r2 heq => by cases heq)) hq2
    | listenIter tid o =>
      have hq2 : unbindsReturn (step w (Action.listenIter tid o)) acts := hq
      exact ih _ (wf_step w _ hwf)
        (step_keeps_running w _ hwf hrun (fun r2 heq => by cases heq)) hq2

/-- C11. From the empty registry, `/bind?port=7000&target_addr=127.0.0.1:9999`
followed by `/unbind?port=7000` (two requests, no other step) leads to a
registry that still stores a binding under key 7000 whose `running` flag is
false: the handler of `/unbind` panicked on the nil listener after
`p.running = false` and before `delete`. A further `/bind` for 7000 answers
`"ok\n"`, changes the target and leaves `running` false. The `listen_port` of
the stored binding is its key throughout. -/
theorem unbind_panic_keeps_stopped_binding :
    (∀ act ∈
        [Action.bind { RemoteAddr := "10.0.0.5:40000", port := 7000, local_port := "",
                       target_addr := "127.0.0.1:9999" } 5,
         Action.unbind { RemoteAddr := "10.0.0.5:40002", port := 7000, local_port := "",
                         target_addr := "" }], isRequest act = true) ∧
    (run (World.init false 8181)
        [Action.bind { RemoteAddr := "10.0.0.5:40000", port := 7000, local_port := "",
                       target_addr := "127.0.0.1:9999" } 5,
         Action.unbind { RemoteAddr := "10.0.0.5:40002", port := 7000, local_port := "",
                         target_addr := "" }]).v.ports.lookup 7000 = some 0 ∧
    (run (World.init false 8181)
        [Action.bind { RemoteAddr := "10.0.0.5:40000", port := 7000, local_port := "",
                       target_addr := "127.0.0.1:9999" } 5,
         Action.unbind { RemoteAddr := "10.0.0.5:40002", port := 7000, local_port := "",
                         target_addr := "" }]).heap[0]? =
      some { remote_addr := "127.0.0.1:9999", listen_port := 7000, last_active := 5,
             running := false, listener := none } ∧
    ¬ AllRunning (run (World.init false 8181)
        [Action.bind { RemoteAddr := "10.0.0.5:40000", port := 7000, local_port := "",
                       target_addr := "127.0.0.1:9999" } 5,
         Action.unbind { RemoteAddr := "10.0.0.5:40002", port := 7000, local_port := "",
                         target_addr := "" }]) ∧
    (run (World.init false 8181)
        [Action.bind { RemoteAddr := "10.0.0.5:40000", port := 7000, local_port := "",
                       target_addr := "127.0.0.1:9999" } 5,
         Action.unbind { RemoteAddr := "10.0.0.5:40002", port := 7000, local_port := "",
                         target_addr := "" },
         Action.bind { RemoteAddr := "10.0.0.5:40003", port := 7000, local_port := "",
                       target_addr := "127.0.0.1:9998" } 6]).heap[0]? =
      some { remote_addr := "127.0.0.1:9998", listen_port := 7000, last_active := 6,
             running := false, listener := none } := by
  refine ⟨?_, ?_, ?_, ?_, ?_⟩
  · decide
  · decide
  · decide
  · decide
  · decide

end Portmap
